import Mathlib

/-!
Shallow embedding of the clipboard selection-capture-to-storage pipeline of
`src/vicinae/src/services/clipboard/clipboard-service.cpp`, together with a
model of the `ClipboardDatabase` layer (which lies outside the excerpt and is
therefore modelled from the specification, see the doc comments of the
individual database operations).

Machine-level details that come from Qt or from the crypto library
(MD5 hashing, URL parsing, HTML-to-text conversion, AES encryption, image
previews) are abstracted as an environment of opaque-to-the-model functions
bundled in `QtEnv`; the theorems quantify over that environment.
-/

set_option maxHeartbeats 1000000

namespace Vicinae

/-- Raw payload bytes (`QByteArray`). -/
abbrev Bytes := List Nat

/-- One mime-typed content representation inside a selection (`ClipboardDataOffer`). -/
structure ClipboardDataOffer where
  mimeType : String
  data : Bytes
deriving DecidableEq, Repr

/-- Semantic kind of a clipboard offer (`ClipboardOfferKind`). -/
inductive ClipboardOfferKind
  | Text
  | Image
  | Link
  | Unknown
deriving DecidableEq, Repr

/-- At-rest encryption marker of a stored offer (`ClipboardEncryptionType`). -/
inductive ClipboardEncryptionType
  | None
  | Local
deriving DecidableEq, Repr

/-- A captured clipboard selection event (`ClipboardSelection`). -/
structure ClipboardSelection where
  offers : List ClipboardDataOffer
  sourceApp : Option String
deriving DecidableEq, Repr

/-- External Qt / crypto primitives used by the service, abstracted as functions:
`md5hex` is `QCryptographicHash::hash(..., Md5).toHex()`;
`isValidUrlWithScheme b` is `QUrl::fromEncoded(b, StrictMode)` being valid with a
non-empty scheme; `urlSchemeStartsWithHttp` / `urlHost` expose the scheme test and
host of that parsed URL; `htmlToPlainText` is `QTextDocument::setHtml` followed by
`toPlainText().toUtf8()`; `simplifiedPreview` is `data.simplified().mid(0, 50)`;
`imagePreview` is the `QImageReader`-based preview string; `encrypt d k` is
`Crypto::AES256GCM::encrypt(d, k)`. -/
structure QtEnv where
  md5hex : Bytes → String
  isValidUrlWithScheme : Bytes → Bool
  urlSchemeStartsWithHttp : Bytes → Bool
  urlHost : Bytes → String
  htmlToPlainText : Bytes → Bytes
  simplifiedPreview : Bytes → String
  imagePreview : Bytes → String
  encrypt : Bytes → Bytes → Bytes

/-- Modelled from the spec: the privacy-sensitive marker mime type
(`Clipboard::CONCEALED_MIME_TYPE`, declared outside the excerpt; the spec only
requires it to be a distinguished mime type flagging concealed input). -/
def CONCEALED_MIME_TYPE : String := "x-kde-passwordManagerHint"

/-- `QString::startsWith`, modelled on the character list of the string. -/
def mimeStartsWith (s p : String) : Bool := p.data.isPrefixOf s.data

/-- The `application/` subtypes treated as text (`applicationTexts` in `getKind`). -/
def applicationTexts : List String :=
  ["json", "xml", "javascript", "sql"].map (fun t => "application/" ++ t)

/-- `ClipboardService::getKind` (clipboard-service.cpp:180-200). -/
def getKind (env : QtEnv) (offer : ClipboardDataOffer) : ClipboardOfferKind :=
  if mimeStartsWith offer.mimeType "image/" then ClipboardOfferKind.Image
  else if mimeStartsWith offer.mimeType "text/" then
    if offer.mimeType = "text/html" then ClipboardOfferKind.Text
    else if env.isValidUrlWithScheme offer.data then ClipboardOfferKind.Link
    else ClipboardOfferKind.Text
  else if mimeStartsWith offer.mimeType "application/" then
    if applicationTexts.contains offer.mimeType then ClipboardOfferKind.Text
    else ClipboardOfferKind.Unknown
  else ClipboardOfferKind.Unknown

/-- The numeric priority assigned to one mime type by the loop body of
`ClipboardService::getSelectionPreferredMimeType` (clipboard-service.cpp:215-234):
`Other = 1`, `HtmlText = 2`, `Text = 3`, `ImageJpeg = 5`, `ImagePng = 6`,
`ImageSvg = 7`; the enumerator `GenericImage = 4` is never assigned. -/
def selectionPriorityOf (m : String) : Nat :=
  if mimeStartsWith m "text/" then
    if m = "text/plain" then 3
    else if m = "text/html" then 2
    else if m = "text/svg" then 7
    else 3
  else if m = "image/jpeg" then 5
  else if m = "image/png" then 6
  else if m = "image/svg+xml" then 7
  else 1

/-- The loop body of `ClipboardService::getSelectionPreferredMimeType`
(clipboard-service.cpp:215-239): skip mozilla-internal mime types, otherwise
replace the accumulated `(priority, preferredMimeType)` pair only on a strictly
greater priority. -/
def selectionPriorityStep (acc : Nat × String) (offer : ClipboardDataOffer) :
    Nat × String :=
  if mimeStartsWith offer.mimeType "text/_moz_html" then acc
  else
    let p := selectionPriorityOf offer.mimeType
    if acc.1 < p then (p, offer.mimeType) else acc

/-- `ClipboardService::getSelectionPreferredMimeType` (clipboard-service.cpp:202-241):
fold of the loop body over the offers starting from `(Invalid = 0, "")`. -/
def getSelectionPreferredMimeType (selection : ClipboardSelection) : String :=
  (selection.offers.foldl selectionPriorityStep ((0 : Nat), "")).2

/-- Helper of `dedupAdjacentByMime`: walks the list comparing each element with
the last kept element, dropping it on equal mime type. -/
def dedupAdjacentGo (last : ClipboardDataOffer) :
    List ClipboardDataOffer → List ClipboardDataOffer
  | [] => []
  | b :: rest =>
    if last.mimeType = b.mimeType then dedupAdjacentGo last rest
    else b :: dedupAdjacentGo b rest

/-- `std::ranges::unique` with the mime-type equality predicate: all but the first
element of every consecutive group of offers with equal mime type are removed
(each element is compared against the last kept element). -/
def dedupAdjacentByMime : List ClipboardDataOffer → List ClipboardDataOffer
  | [] => []
  | a :: rest => a :: dedupAdjacentGo a rest

/-- The offers list of a selection after the filtering stage of `saveSelection`
(clipboard-service.cpp:345-346): `std::erase_if` drops empty-data offers, then
`std::ranges::unique` shifts adjacent same-mime duplicates out of the way — but
its result is never erased, so the vector keeps its length and the tail holds
moved-from elements. Qt containers that have been moved from are modelled as
default-constructed (empty mime type, empty bytes). -/
def processedOffers (selection : ClipboardSelection) : List ClipboardDataOffer :=
  let erased := selection.offers.filter (fun o => !o.data.isEmpty)
  let deduped := dedupAdjacentByMime erased
  deduped ++ List.replicate (erased.length - deduped.length) { mimeType := "", data := [] }

/-- `ClipboardService::isClearSelection` (clipboard-service.cpp:310-313): the sum of
all offer data sizes is zero. -/
def isClearSelection (offers : List ClipboardDataOffer) : Bool :=
  (offers.foldl (fun acc o => acc + o.data.length) 0) = 0

/-- The representative-offer choice of `saveSelection` (clipboard-service.cpp:358-381):
first `text/plain` offer, else first `image/*` offer, else first `text/html` offer
with its markup stripped to plain text; `none` when no supported mime is present.
Returns `(offerData, mimeTypeToSave)`. -/
def chooseRepresentative (env : QtEnv) (offers : List ClipboardDataOffer) :
    Option (Bytes × String) :=
  match offers.find? (fun o => o.mimeType = "text/plain") with
  | some o => some (o.data, "text/plain")
  | none =>
    match offers.find? (fun o => mimeStartsWith o.mimeType "image/") with
    | some o => some (o.data, o.mimeType)
    | none =>
      match offers.find? (fun o => o.mimeType = "text/html") with
      | some o => some (env.htmlToPlainText o.data, "text/plain")
      | none => none

/-- `ClipboardService::getOfferTextPreview` (clipboard-service.cpp:315-332). -/
def getOfferTextPreview (env : QtEnv) (offer : ClipboardDataOffer) : String :=
  if mimeStartsWith offer.mimeType "text/" then env.simplifiedPreview offer.data
  else if mimeStartsWith offer.mimeType "image/" then env.imagePreview offer.data
  else "Unnamed"

/-- A row of the `selections` table. Modelled from the spec (§3): the
`ClipboardDatabase` schema is outside the excerpt; fields follow the
`InsertClipboardSelectionPayload` used at clipboard-service.cpp:394-399 plus the
spec's recency fields. -/
structure SelectionRow where
  id : String
  offerCount : Nat
  hash : String
  preferredMimeType : String
  kind : ClipboardOfferKind
  source : Option String
  createdAt : Nat
  updatedAt : Nat
  pinnedAt : Option Nat
deriving DecidableEq, Repr

/-- A row of the `offers` table. Modelled from the spec (§3) and the
`InsertClipboardOfferPayload` built at clipboard-service.cpp:416-424. -/
structure OfferRow where
  id : String
  selectionId : String
  mimeType : String
  textPreview : String
  md5sum : String
  encryption : ClipboardEncryptionType
  size : Nat
  urlHost : Option String
deriving DecidableEq, Repr

/-- Modelled from the spec: the transactional metadata database
(`ClipboardDatabase`, outside the excerpt): `selections` and `offers` tables plus
the plain-text search index fed by `indexSelectionContent`. -/
structure ClipboardDatabase where
  selections : List SelectionRow
  offers : List OfferRow
  index : List (String × Bytes)
deriving DecidableEq, Repr

/-- Modelled from the spec (§4.3 step 2): `ClipboardDatabase::tryBubbleUpSelection`
refreshes the recency of an existing selection with the given content hash and
reports whether one existed; nothing else is touched. -/
def tryBubbleUpSelection (db : ClipboardDatabase) (hash : String) (now : Nat) :
    Option ClipboardDatabase :=
  if db.selections.any (fun r => r.hash = hash) then
    some { db with
           selections := db.selections.map
             (fun r => if r.hash = hash then { r with updatedAt := now } else r) }
  else none

/-- Modelled from the spec (§4.3 step 3): `ClipboardDatabase::insertSelection`
appends the new selection row. -/
def dbInsertSelection (db : ClipboardDatabase) (row : SelectionRow) : ClipboardDatabase :=
  { db with selections := db.selections ++ [row] }

/-- Modelled from the spec (§4.3 step 3): `ClipboardDatabase::indexSelectionContent`
records the plain-text content of a selection in the search index. -/
def dbIndexSelectionContent (db : ClipboardDatabase) (selectionId : String)
    (content : Bytes) : ClipboardDatabase :=
  { db with index := db.index ++ [(selectionId, content)] }

/-- Modelled from the spec (§4.3 step 3): `ClipboardDatabase::insertOffer` appends
the new offer row. -/
def dbInsertOffer (db : ClipboardDatabase) (row : OfferRow) : ClipboardDatabase :=
  { db with offers := db.offers ++ [row] }

/-- Modelled from the spec (§4.3): `ClipboardDatabase::removeSelection` deletes the
selection row and all its offer rows and returns the identifiers of the offer rows
that were removed. -/
def dbRemoveSelection (db : ClipboardDatabase) (selectionId : String) :
    ClipboardDatabase × List String :=
  let removed := (db.offers.filter (fun o => o.selectionId = selectionId)).map (fun o => o.id)
  ({ db with
     selections := db.selections.filter (fun r => r.id ≠ selectionId),
     offers := db.offers.filter (fun o => o.selectionId ≠ selectionId) },
   removed)

/-- The entry carried by the `itemInserted` signal (`ClipboardHistoryEntry`,
declared outside the excerpt; only the fields assigned at
clipboard-service.cpp:444-449 are modelled). A default-constructed entry has
empty strings and zero timestamps. -/
structure ClipboardHistoryEntry where
  id : String
  pinnedAt : Nat
  updatedAt : Nat
  mimeType : String
  md5sum : String
  textPreview : String
deriving DecidableEq, Repr

/-- The default-constructed `ClipboardHistoryEntry insertedEntry;` of
clipboard-service.cpp:385. -/
def defaultEntry : ClipboardHistoryEntry :=
  { id := "", pinnedAt := 0, updatedAt := 0, mimeType := "", md5sum := "", textPreview := "" }

/-- Which fallible steps of the transaction body fail in a given run: the
database inserts (a failed SQL insert leaves the table unchanged and returns
false), the search-index insert, the blob-file open and the blob-file write. -/
structure FailSpec where
  insertSelectionFails : Bool
  indexFails : Bool
  insertOfferFails : Bool
  blobOpenFails : Bool
  blobWriteFails : Bool
deriving DecidableEq, Repr

/-- The run in which every step succeeds. -/
def noFail : FailSpec :=
  { insertSelectionFails := false, indexFails := false, insertOfferFails := false,
    blobOpenFails := false, blobWriteFails := false }

/-- The mutable state of the `ClipboardService` relevant to the pipeline:
the monitoring flag, the encryption-readiness flag and cached key set by the
constructor's key watcher (clipboard-service.cpp:545-552), the metadata
database and the blob directory (`m_dataDir`, one file per offer id). -/
structure ServiceState where
  monitoring : Bool
  isEncryptionReady : Bool
  localEncryptionKey : Option Bytes
  db : ClipboardDatabase
  blobs : List (String × Bytes)
deriving DecidableEq, Repr

/-- Result of the transaction callback of `saveSelection`
(clipboard-service.cpp:388-452): the database as modified by the callback, the
blob directory (filesystem writes are not rolled back), whether the callback
returned `true`, and the `insertedEntry` value after the callback ran. -/
structure TxResult where
  db : ClipboardDatabase
  blobs : List (String × Bytes)
  ok : Bool
  entry : ClipboardHistoryEntry
deriving DecidableEq, Repr

/-- The transaction callback of `saveSelection` (clipboard-service.cpp:388-452),
with the fresh UUIDs (`selectionId`, `offerId`), the wall clock and the failure
behaviour of each step passed explicitly. Note two facts taken directly from the
source: the return value of `db.insertOffer(dto)` (line 431) is not checked, and
the blob file is created by `targetFile.open` and written without checking
`write`'s result (lines 436-442). -/
def saveSelectionTxBody (env : QtEnv) (fails : FailSpec)
    (selectionId offerId : String) (now : Nat) (key : Option Bytes)
    (source : Option String) (db : ClipboardDatabase) (blobs : List (String × Bytes))
    (offerData : Bytes) (mimeTypeToSave : String) : TxResult :=
  let selectionHash := env.md5hex offerData
  match tryBubbleUpSelection db selectionHash now with
  | some db' => { db := db', blobs := blobs, ok := true, entry := defaultEntry }
  | none =>
    let kind := getKind env { mimeType := mimeTypeToSave, data := offerData }
    if fails.insertSelectionFails then
      { db := db, blobs := blobs, ok := false, entry := defaultEntry }
    else
      let db1 := dbInsertSelection db
        { id := selectionId, offerCount := 1, hash := selectionHash,
          preferredMimeType := mimeTypeToSave, kind := kind, source := source,
          createdAt := now, updatedAt := now, pinnedAt := none }
      let textPreview := getOfferTextPreview env { mimeType := mimeTypeToSave, data := offerData }
      let isIndexed := kind = ClipboardOfferKind.Text ∨ kind = ClipboardOfferKind.Link
      if isIndexed ∧ fails.indexFails then
        { db := db1, blobs := blobs, ok := false, entry := defaultEntry }
      else
        let db2 := if isIndexed then dbIndexSelectionContent db1 selectionId offerData else db1
        let md5sum := env.md5hex offerData
        let encryption :=
          if key.isSome then ClipboardEncryptionType.Local else ClipboardEncryptionType.None
        let urlHost :=
          if kind = ClipboardOfferKind.Link ∧ env.urlSchemeStartsWithHttp offerData then
            some (env.urlHost offerData)
          else none
        let db3 :=
          if fails.insertOfferFails then db2
          else dbInsertOffer db2
            { id := offerId, selectionId := selectionId, mimeType := mimeTypeToSave,
              textPreview := textPreview, md5sum := md5sum, encryption := encryption,
              size := offerData.length, urlHost := urlHost }
        if fails.blobOpenFails then
          { db := db3, blobs := blobs, ok := false, entry := defaultEntry }
        else
          let content :=
            match key with
            | some k => env.encrypt offerData k
            | none => offerData
          let content := if fails.blobWriteFails then [] else content
          { db := db3,
            blobs := blobs ++ [(offerId, content)],
            ok := true,
            entry := { id := selectionId, pinnedAt := 0, updatedAt := 0,
                       mimeType := mimeTypeToSave, md5sum := md5sum,
                       textPreview := textPreview } }

/-- `ClipboardService::saveSelection` (clipboard-service.cpp:342-455) as a state
transition. The returned list holds the payloads of the `itemInserted` signals
emitted by the call; note that the emit at line 454 is unconditional once the
transaction call is reached, while the filter guards before it return without
emitting. The database is rolled back when the transaction callback returns
false; blob-file writes are filesystem effects and are not rolled back. -/
def saveSelection (env : QtEnv) (fails : FailSpec) (selectionId offerId : String)
    (now : Nat) (st : ServiceState) (selection : ClipboardSelection) :
    ServiceState × List ClipboardHistoryEntry :=
  if !st.monitoring || !st.isEncryptionReady then (st, [])
  else
    let offers := processedOffers selection
    if isClearSelection offers then (st, [])
    else if offers.any (fun o => o.mimeType = CONCEALED_MIME_TYPE) then (st, [])
    else
      match chooseRepresentative env offers with
      | none => (st, [])
      | some (offerData, mimeTypeToSave) =>
        let r := saveSelectionTxBody env fails selectionId offerId now
          st.localEncryptionKey selection.sourceApp st.db st.blobs offerData mimeTypeToSave
        ({ st with db := if r.ok then r.db else st.db, blobs := r.blobs }, [r.entry])

/-- `ClipboardService::removeSelection` (clipboard-service.cpp:243-253): remove the
metadata rows, delete the blob file of every removed offer id, emit
`selectionRemoved` and return true. The second component is the returned Bool,
the third the list of emitted `selectionRemoved` payloads. -/
def removeSelection (st : ServiceState) (selectionId : String) :
    ServiceState × Bool × List String :=
  let res := dbRemoveSelection st.db selectionId
  ({ st with
     db := res.1,
     blobs := st.blobs.filter (fun b => !(res.2.contains b.1)) },
   true, [selectionId])

/-- A concrete instantiation of the external Qt / crypto primitives, used to
evaluate the pipeline on concrete inputs. `md5hex` is injective on byte lists,
as a hash fingerprint is in practice. -/
def sampleEnv : QtEnv :=
  { md5hex := fun b => "md5:" ++ String.intercalate "," (b.map toString)
  , isValidUrlWithScheme := fun _ => false
  , urlSchemeStartsWithHttp := fun _ => false
  , urlHost := fun _ => ""
  , htmlToPlainText := fun b => b
  , simplifiedPreview := fun b => "preview:" ++ toString b.length
  , imagePreview := fun _ => "Image"
  , encrypt := fun d k => d ++ k }

/-- A service state with monitoring on, encryption resolved with no key, and an
empty store. -/
def state0 : ServiceState :=
  { monitoring := true, isEncryptionReady := true, localEncryptionKey := none,
    db := { selections := [], offers := [], index := [] }, blobs := [] }

/-- A single-offer `text/plain` selection carrying the bytes of "foo". -/
def selPlain : ClipboardSelection :=
  { offers := [{ mimeType := "text/plain", data := [102, 111, 111] }], sourceApp := none }

/-- The run in which only the offer-row insert fails. -/
def failInsertOffer : FailSpec := { noFail with insertOfferFails := true }

/-- The run in which only the blob-file open fails. -/
def failBlobOpen : FailSpec := { noFail with blobOpenFails := true }

/-- C1: the claim states that if any step of the insert branch fails the whole
transaction aborts and no partial row, index entry, or blob file remains
visible. The code does not check the result of `db.insertOffer(dto)`
(clipboard-service.cpp:431): when that step fails and every other step
succeeds, the callback still returns true, the transaction commits, and the
store ends up with a selection row, a search-index entry and a blob file but no
offer row. -/
theorem C1_insert_offer_failure_commits_partial_state :
    (saveSelection sampleEnv failInsertOffer "sid1" "oid1" 5 state0 selPlain).1.db.selections.length = 1 ∧
    (saveSelection sampleEnv failInsertOffer "sid1" "oid1" 5 state0 selPlain).1.db.offers = [] ∧
    (saveSelection sampleEnv failInsertOffer "sid1" "oid1" 5 state0 selPlain).1.db.index.length = 1 ∧
    (saveSelection sampleEnv failInsertOffer "sid1" "oid1" 5 state0 selPlain).1.blobs =
      [("oid1", [102, 111, 111])] := by
  decide

/-- C4: the claim states that the deduplicated (bubble-up) path and a failed
transaction emit no insertion notification. The emit at
clipboard-service.cpp:454 is unconditional once the transaction call is
reached: a second capture of the same content (bubble-up, no new selection row)
emits `itemInserted` with a default-constructed entry, and so does a run whose
transaction aborts because the blob file cannot be opened. -/
theorem C4_item_inserted_emitted_on_dedup_path :
    ((saveSelection sampleEnv noFail "sid2" "oid2" 9
        (saveSelection sampleEnv noFail "sid1" "oid1" 5 state0 selPlain).1 selPlain).2 =
      [defaultEntry]) ∧
    ((saveSelection sampleEnv noFail "sid2" "oid2" 9
        (saveSelection sampleEnv noFail "sid1" "oid1" 5 state0 selPlain).1 selPlain).1.db.selections.length = 1) ∧
    ((saveSelection sampleEnv failBlobOpen "sid1" "oid1" 5 state0 selPlain).2 = [defaultEntry]) ∧
    ((saveSelection sampleEnv failBlobOpen "sid1" "oid1" 5 state0 selPlain).1.db = state0.db) := by
  decide

/-- Claim C5's ranking, following the spec's words: generic `Other` < `text/html`
< `text/plain` < generic image < `image/jpeg` < `image/png` < `image/svg` <
(non-`text/plain`) text. This definition exists to be compared against the
source's `selectionPriorityOf`; it is written from the claim, not the code. -/
def claimedSelectionPriority (m : String) : Nat :=
  if m = "text/plain" then 3
  else if m = "text/html" then 2
  else if m = "image/jpeg" then 5
  else if m = "image/png" then 6
  else if m = "image/svg+xml" then 7
  else if mimeStartsWith m "image/" then 4
  else if mimeStartsWith m "text/" then 8
  else 1

/-- Claim C5's preferred-mime-type function, following the spec's words: the mime
type of the offer maximizing `claimedSelectionPriority`, ties broken by
first-seen, mozilla-internal mime types ignored entirely. -/
def claimedPreferredMimeType (selection : ClipboardSelection) : String :=
  (selection.offers.foldl
    (fun acc offer =>
      if mimeStartsWith offer.mimeType "text/_moz_html" then acc
      else if acc.1 < claimedSelectionPriority offer.mimeType then
        (claimedSelectionPriority offer.mimeType, offer.mimeType)
      else acc)
    ((0 : Nat), "")).2

/-- A stored selection offering `text/plain` and a generic (non-jpeg/png/svg)
image. -/
def selPlainAndGif : ClipboardSelection :=
  { offers := [{ mimeType := "text/plain", data := [97] },
               { mimeType := "image/gif", data := [1, 2] }], sourceApp := none }

/-- C5 counterexample: the claim ranks any generic image above `text/plain`, but
the loop of `getSelectionPreferredMimeType` never assigns the `GenericImage`
priority — a mime type like `image/gif` falls through every branch and keeps the
`Other` priority, so `text/plain` wins. -/
theorem C5_claimed_ranking_counterexample :
    getSelectionPreferredMimeType selPlainAndGif = "text/plain" ∧
    claimedPreferredMimeType selPlainAndGif = "image/gif" ∧
    getSelectionPreferredMimeType selPlainAndGif ≠ claimedPreferredMimeType selPlainAndGif := by
  decide

/-- Claim C7's deduplication, following the spec's words: only the first offer of
each mime type is kept, wherever it occurs in the list. Written from the claim,
to be compared against the source's filtering stage. -/
def dedupByMimeFirstAux (seen : List String) :
    List ClipboardDataOffer → List ClipboardDataOffer
  | [] => []
  | o :: rest =>
    if seen.contains o.mimeType then dedupByMimeFirstAux seen rest
    else o :: dedupByMimeFirstAux (o.mimeType :: seen) rest

/-- Claim C7's filtering stage, following the spec's words: drop empty-byte
offers, then keep only the first offer of each mime type. -/
def claimedFilteredOffers (selection : ClipboardSelection) : List ClipboardDataOffer :=
  dedupByMimeFirstAux [] (selection.offers.filter (fun o => !o.data.isEmpty))

/-- A selection with two non-adjacent `text/plain` offers. -/
def selNonAdjacentDup : ClipboardSelection :=
  { offers := [{ mimeType := "text/plain", data := [1] },
               { mimeType := "text/html", data := [2] },
               { mimeType := "text/plain", data := [3] }], sourceApp := none }

/-- C7 counterexample: `std::ranges::unique` only collapses adjacent offers with
equal mime type, so when two offers of the same mime type are separated by a
different one, both survive the filtering stage — the considered list is not the
claimed global first-of-each-mime-type deduplication. -/
theorem C7_claimed_global_dedup_counterexample :
    processedOffers selNonAdjacentDup ≠ claimedFilteredOffers selNonAdjacentDup ∧
    processedOffers selNonAdjacentDup =
      [{ mimeType := "text/plain", data := [1] },
       { mimeType := "text/html", data := [2] },
       { mimeType := "text/plain", data := [3] }] ∧
    claimedFilteredOffers selNonAdjacentDup =
      [{ mimeType := "text/plain", data := [1] },
       { mimeType := "text/html", data := [2] }] := by
  decide

/-- A selection whose concealed-marker offer carries empty bytes next to a real
`text/plain` offer. -/
def selEmptyConcealed : ClipboardSelection :=
  { offers := [{ mimeType := CONCEALED_MIME_TYPE, data := [] },
               { mimeType := "text/plain", data := [57] }], sourceApp := none }

/-- C8 counterexample: `std::erase_if` drops empty-data offers before the
concealed check (clipboard-service.cpp:345 vs 350), so a concealed-marker offer
with empty bytes is erased first and the rest of the selection is persisted —
the claim's unconditional discard does not hold for such a selection. -/
theorem C8_empty_concealed_offer_counterexample :
    (saveSelection sampleEnv noFail "sid1" "oid1" 5 state0 selEmptyConcealed).1.db.selections.length = 1 ∧
    (saveSelection sampleEnv noFail "sid1" "oid1" 5 state0 selEmptyConcealed).1.blobs ≠ [] ∧
    saveSelection sampleEnv noFail "sid1" "oid1" 5 state0 selEmptyConcealed ≠ (state0, []) := by
  decide

/-- Claim C6's kind classification, following the spec's words: `Image` for
`image/*`; for `text/*` exactly `text/html` is `Text`, otherwise `Link` when the
payload parses as a URL with a non-empty scheme and `Text` when not; `Text` for
exactly the four listed `application/` subtypes; `Unknown` for every other mime
type. Written from the claim, to be compared against the source's `getKind`. -/
def claimedKind (env : QtEnv) (offer : ClipboardDataOffer) : ClipboardOfferKind :=
  if mimeStartsWith offer.mimeType "image/" then ClipboardOfferKind.Image
  else if mimeStartsWith offer.mimeType "text/" then
    if offer.mimeType = "text/html" then ClipboardOfferKind.Text
    else if env.isValidUrlWithScheme offer.data then ClipboardOfferKind.Link
    else ClipboardOfferKind.Text
  else if offer.mimeType = "application/json" ∨ offer.mimeType = "application/xml" ∨
      offer.mimeType = "application/javascript" ∨ offer.mimeType = "application/sql" then
    ClipboardOfferKind.Text
  else ClipboardOfferKind.Unknown

/-- C6: `getKind` classifies exactly as the claim states: `Image` for `image/*`
prefixes; for `text/*` prefixes `text/html` is `Text` and otherwise URL-parsing
decides between `Link` and `Text`; exactly `application/json`, `application/xml`,
`application/javascript` and `application/sql` are `Text`; everything else is
`Unknown`. -/
theorem C6_get_kind_cases (env : QtEnv) (offer : ClipboardDataOffer) :
    getKind env offer = claimedKind env offer := by
  have happS : applicationTexts =
      ["application/json", "application/xml", "application/javascript", "application/sql"] := by
    rfl
  unfold getKind claimedKind
  by_cases himg : mimeStartsWith offer.mimeType "image/" = true
  · simp [himg]
  · simp only [Bool.not_eq_true] at himg
    by_cases htxt : mimeStartsWith offer.mimeType "text/" = true
    · simp [himg, htxt]
    · simp only [Bool.not_eq_true] at htxt
      simp only [himg, htxt, Bool.false_eq_true, if_false]
      by_cases happ :
          offer.mimeType = "application/json" ∨ offer.mimeType = "application/xml" ∨
          offer.mimeType = "application/javascript" ∨ offer.mimeType = "application/sql"
      · rw [if_pos happ]
        have hres : ∀ m : String,
            m = "application/json" ∨ m = "application/xml" ∨
              m = "application/javascript" ∨ m = "application/sql" →
            (if mimeStartsWith m "application/" = true then
              (if applicationTexts.contains m = true then ClipboardOfferKind.Text
               else ClipboardOfferKind.Unknown)
             else ClipboardOfferKind.Unknown) = ClipboardOfferKind.Text := by
          intro m hm
          rcases hm with h | h | h | h <;> rw [h] <;> decide
        exact hres offer.mimeType happ
      · rw [if_neg happ]
        push_neg at happ
        obtain ⟨h1, h2, h3, h4⟩ := happ
        have hmem : applicationTexts.contains offer.mimeType = false := by
          rw [happS]
          simp [h1, h2, h3, h4]
        simp only [hmem, Bool.false_eq_true, if_false, ite_self]

lemma mime_mem_dedupAdjacentGo {m : String} :
    ∀ (xs : List ClipboardDataOffer) (last : ClipboardDataOffer),
      (∃ o ∈ xs, o.mimeType = m) →
      m = last.mimeType ∨ ∃ o' ∈ dedupAdjacentGo last xs, o'.mimeType = m := by
  intro xs
  induction xs with
  | nil => intro last h; obtain ⟨o, ho, -⟩ := h; exact absurd ho (List.not_mem_nil o)
  | cons b rest ih =>
    intro last h
    obtain ⟨o, ho, hom⟩ := h
    unfold dedupAdjacentGo
    by_cases heq : last.mimeType = b.mimeType
    · rw [if_pos heq]
      rcases List.mem_cons.mp ho with rfl | hor
      · exact Or.inl (by rw [hom] at heq; exact heq.symm)
      · exact ih last ⟨o, hor, hom⟩
    · rw [if_neg heq]
      rcases List.mem_cons.mp ho with rfl | hor
      · exact Or.inr ⟨o, List.mem_cons_self _ _, hom⟩
      · rcases ih b ⟨o, hor, hom⟩ with hb | ⟨o', ho', hm'⟩
        · exact Or.inr ⟨b, List.mem_cons_self _ _, hb.symm⟩
        · exact Or.inr ⟨o', List.mem_cons_of_mem _ ho', hm'⟩

lemma mime_mem_dedupAdjacentByMime {m : String} {xs : List ClipboardDataOffer}
    (h : ∃ o ∈ xs, o.mimeType = m) :
    ∃ o' ∈ dedupAdjacentByMime xs, o'.mimeType = m := by
  match xs, h with
  | a :: rest, ⟨o, ho, hom⟩ =>
    unfold dedupAdjacentByMime
    rcases List.mem_cons.mp ho with rfl | hor
    · exact ⟨o, List.mem_cons_self _ _, hom⟩
    · rcases mime_mem_dedupAdjacentGo rest a ⟨o, hor, hom⟩ with ha | ⟨o', ho', hm'⟩
      · exact ⟨a, List.mem_cons_self _ _, ha.symm⟩
      · exact ⟨o', List.mem_cons_of_mem _ ho', hm'⟩

/-- C8 (amended): if any offer with non-empty bytes carries the concealed marker
mime type, `saveSelection` discards the entire selection: the state is unchanged
and nothing is emitted. (The amendment restricts the claim to offers with
non-empty bytes, which `C8_empty_concealed_offer_counterexample` shows is
necessary: empty-byte offers are erased before the concealed check.) -/
theorem C8_nonempty_concealed_discards_selection
    (env : QtEnv) (fails : FailSpec) (sid oid : String) (now : Nat)
    (st : ServiceState) (sel : ClipboardSelection) (o : ClipboardDataOffer)
    (ho : o ∈ sel.offers) (hmime : o.mimeType = CONCEALED_MIME_TYPE)
    (hdata : o.data ≠ []) :
    saveSelection env fails sid oid now st sel = (st, []) := by
  have hfilter : o ∈ sel.offers.filter (fun o => !o.data.isEmpty) := by
    refine List.mem_filter.mpr ⟨ho, ?_⟩
    simp [List.isEmpty_iff, hdata]
  have hconc : (processedOffers sel).any
      (fun o => o.mimeType = CONCEALED_MIME_TYPE) = true := by
    obtain ⟨o', ho', hm'⟩ :=
      mime_mem_dedupAdjacentByMime (m := CONCEALED_MIME_TYPE) ⟨o, hfilter, hmime⟩
    refine List.any_eq_true.mpr ⟨o', ?_, by simp [hm']⟩
    unfold processedOffers
    exact List.mem_append_left _ ho'
  unfold saveSelection
  by_cases hmon : (!st.monitoring || !st.isEncryptionReady) = true
  · rw [if_pos hmon]
  · rw [if_neg hmon]
    by_cases hclear : isClearSelection (processedOffers sel) = true
    · simp only [hclear, if_true]
    · simp only [Bool.not_eq_true] at hclear
      simp only [hclear, Bool.false_eq_true, if_false, hconc, if_true]

/-- C8 witness for `C8_nonempty_concealed_discards_selection`. -/
theorem C8_nonempty_concealed_discards_selection_witness :
    saveSelection sampleEnv noFail "sid1" "oid1" 5 state0
      { offers := [{ mimeType := "text/plain", data := [9] },
                   { mimeType := CONCEALED_MIME_TYPE, data := [49] }], sourceApp := none } =
      (state0, []) :=
  C8_nonempty_concealed_discards_selection sampleEnv noFail "sid1" "oid1" 5 state0
    { offers := [{ mimeType := "text/plain", data := [9] },
                 { mimeType := CONCEALED_MIME_TYPE, data := [49] }], sourceApp := none }
    { mimeType := CONCEALED_MIME_TYPE, data := [49] }
    (by decide) rfl (by decide)

/-- C3: the representative offer persisted by `saveSelection` is chosen by the
strict priority `text/plain` (first-seen) over `image/*` (first-seen) over
`text/html` (first-seen, markup stripped to plain text, stored as `text/plain`);
with none of these mime types present the selection is skipped and nothing is
persisted or emitted; on offers `[(text/plain, "foo"), (image/png, bytes)]` the
representative is the `text/plain` payload with kind `Text`. -/
theorem C3_representative_priority (env : QtEnv) (xs : List ClipboardDataOffer) :
    (∀ o, xs.find? (fun o => o.mimeType = "text/plain") = some o →
      chooseRepresentative env xs = some (o.data, "text/plain")) ∧
    (xs.find? (fun o => o.mimeType = "text/plain") = none →
      ∀ o, xs.find? (fun o => mimeStartsWith o.mimeType "image/") = some o →
        chooseRepresentative env xs = some (o.data, o.mimeType)) ∧
    (xs.find? (fun o => o.mimeType = "text/plain") = none →
      xs.find? (fun o => mimeStartsWith o.mimeType "image/") = none →
      ∀ o, xs.find? (fun o => o.mimeType = "text/html") = some o →
        chooseRepresentative env xs = some (env.htmlToPlainText o.data, "text/plain")) ∧
    ((∀ o ∈ xs, o.mimeType ≠ "text/plain" ∧ mimeStartsWith o.mimeType "image/" = false ∧
       o.mimeType ≠ "text/html") →
      chooseRepresentative env xs = none) ∧
    (∀ (fails : FailSpec) (sid oid : String) (now : Nat) (st : ServiceState)
        (sel : ClipboardSelection),
      chooseRepresentative env (processedOffers sel) = none →
      saveSelection env fails sid oid now st sel = (st, [])) ∧
    (env.isValidUrlWithScheme [102, 111, 111] = false →
      chooseRepresentative env
        [{ mimeType := "text/plain", data := [102, 111, 111] },
         { mimeType := "image/png", data := [1, 2] }] = some ([102, 111, 111], "text/plain") ∧
      getKind env { mimeType := "text/plain", data := [102, 111, 111] } =
        ClipboardOfferKind.Text) := by
  refine ⟨?_, ?_, ?_, ?_, ?_, ?_⟩
  · intro o hfind
    unfold chooseRepresentative
    rw [hfind]
  · intro hplain o hfind
    unfold chooseRepresentative
    rw [hplain, hfind]
  · intro hplain himg o hfind
    unfold chooseRepresentative
    rw [hplain, himg, hfind]
  · intro hall
    unfold chooseRepresentative
    have h1 : xs.find? (fun o => o.mimeType = "text/plain") = none := by
      rw [List.find?_eq_none]
      intro o ho
      simp [(hall o ho).1]
    have h2 : xs.find? (fun o => mimeStartsWith o.mimeType "image/") = none := by
      rw [List.find?_eq_none]
      intro o ho
      simp [(hall o ho).2.1]
    have h3 : xs.find? (fun o => o.mimeType = "text/html") = none := by
      rw [List.find?_eq_none]
      intro o ho
      simp [(hall o ho).2.2]
    rw [h1, h2, h3]
  · intro fails sid oid now st sel hnone
    unfold saveSelection
    by_cases hmon : (!st.monitoring || !st.isEncryptionReady) = true
    · rw [if_pos hmon]
    · rw [if_neg hmon]
      by_cases hclear : isClearSelection (processedOffers sel) = true
      · simp only [hclear, if_true]
      · simp only [Bool.not_eq_true] at hclear
        by_cases hconc : (processedOffers sel).any
            (fun o => o.mimeType = CONCEALED_MIME_TYPE) = true
        · simp only [hclear, Bool.false_eq_true, if_false, hconc, if_true]
        · simp only [Bool.not_eq_true] at hconc
          simp only [hclear, hconc, Bool.false_eq_true, if_false, hnone]
  · intro hurl
    constructor
    · unfold chooseRepresentative
      simp [List.find?]
    · unfold getKind
      simp [hurl, mimeStartsWith]

/-- C3 witness for `C3_representative_priority`: the spec's concrete instance,
instantiated with the sample environment (in which "foo" does not parse as a
URL with a scheme). -/
theorem C3_representative_priority_witness :
    chooseRepresentative sampleEnv
      [{ mimeType := "text/plain", data := [102, 111, 111] },
       { mimeType := "image/png", data := [1, 2] }] = some ([102, 111, 111], "text/plain") ∧
    getKind sampleEnv { mimeType := "text/plain", data := [102, 111, 111] } =
      ClipboardOfferKind.Text :=
  (C3_representative_priority sampleEnv []).2.2.2.2.2 rfl

@[simp] lemma dbInsertSelection_selections (db : ClipboardDatabase) (row : SelectionRow) :
    (dbInsertSelection db row).selections = db.selections ++ [row] := rfl

@[simp] lemma dbInsertSelection_offers (db : ClipboardDatabase) (row : SelectionRow) :
    (dbInsertSelection db row).offers = db.offers := rfl

@[simp] lemma dbInsertSelection_index (db : ClipboardDatabase) (row : SelectionRow) :
    (dbInsertSelection db row).index = db.index := rfl

@[simp] lemma dbIndexSelectionContent_selections (db : ClipboardDatabase) (s : String)
    (c : Bytes) : (dbIndexSelectionContent db s c).selections = db.selections := rfl

@[simp] lemma dbIndexSelectionContent_offers (db : ClipboardDatabase) (s : String)
    (c : Bytes) : (dbIndexSelectionContent db s c).offers = db.offers := rfl

@[simp] lemma dbIndexSelectionContent_index (db : ClipboardDatabase) (s : String)
    (c : Bytes) : (dbIndexSelectionContent db s c).index = db.index ++ [(s, c)] := rfl

@[simp] lemma dbInsertOffer_selections (db : ClipboardDatabase) (row : OfferRow) :
    (dbInsertOffer db row).selections = db.selections := rfl

@[simp] lemma dbInsertOffer_offers (db : ClipboardDatabase) (row : OfferRow) :
    (dbInsertOffer db row).offers = db.offers ++ [row] := rfl

@[simp] lemma dbInsertOffer_index (db : ClipboardDatabase) (row : OfferRow) :
    (dbInsertOffer db row).index = db.index := rfl

/-- When no stored selection carries the hash of the representative payload and
every step succeeds, `saveSelection` takes the insert branch and the resulting
state is fully explicit: one new selection row, one new offer row, a search-index
entry exactly when the kind is Text or Link, and one new blob file holding the
payload encrypted exactly when a key is cached. -/
lemma saveSelection_insert_path (env : QtEnv) (sid oid : String) (now : Nat)
    (st : ServiceState) (sel : ClipboardSelection) (d : Bytes) (m : String)
    (hmon : st.monitoring = true) (hready : st.isEncryptionReady = true)
    (hclear : isClearSelection (processedOffers sel) = false)
    (hconc : (processedOffers sel).any (fun o => o.mimeType = CONCEALED_MIME_TYPE) = false)
    (hrep : chooseRepresentative env (processedOffers sel) = some (d, m))
    (hfresh : st.db.selections.any (fun r => r.hash = env.md5hex d) = false) :
    saveSelection env noFail sid oid now st sel =
      ({ st with
         db :=
           { selections := st.db.selections ++
               [{ id := sid, offerCount := 1, hash := env.md5hex d,
                  preferredMimeType := m,
                  kind := getKind env { mimeType := m, data := d },
                  source := sel.sourceApp, createdAt := now, updatedAt := now,
                  pinnedAt := none }],
             offers := st.db.offers ++
               [{ id := oid, selectionId := sid, mimeType := m,
                  textPreview := getOfferTextPreview env { mimeType := m, data := d },
                  md5sum := env.md5hex d,
                  encryption :=
                    if st.localEncryptionKey.isSome then ClipboardEncryptionType.Local
                    else ClipboardEncryptionType.None,
                  size := d.length,
                  urlHost :=
                    if getKind env { mimeType := m, data := d } = ClipboardOfferKind.Link ∧
                        env.urlSchemeStartsWithHttp d then
                      some (env.urlHost d)
                    else none }],
             index :=
               if getKind env { mimeType := m, data := d } = ClipboardOfferKind.Text ∨
                   getKind env { mimeType := m, data := d } = ClipboardOfferKind.Link then
                 st.db.index ++ [(sid, d)]
               else st.db.index },
         blobs := st.blobs ++
           [(oid, match st.localEncryptionKey with
                  | some k => env.encrypt d k
                  | none => d)] },
       [{ id := sid, pinnedAt := 0, updatedAt := 0, mimeType := m,
          md5sum := env.md5hex d,
          textPreview := getOfferTextPreview env { mimeType := m, data := d } }]) := by
  unfold saveSelection
  simp only [hmon, hready, Bool.not_true, Bool.or_self, Bool.false_eq_true, if_false,
    hclear, hconc, if_false]
  rw [hrep]
  unfold saveSelectionTxBody tryBubbleUpSelection
  simp only [hfresh, Bool.false_eq_true, if_false, noFail]
  by_cases hidx : getKind env { mimeType := m, data := d } = ClipboardOfferKind.Text ∨
      getKind env { mimeType := m, data := d } = ClipboardOfferKind.Link
  · simp [hidx, dbInsertSelection, dbIndexSelectionContent, dbInsertOffer]
  · simp [hidx, dbInsertSelection, dbIndexSelectionContent, dbInsertOffer]

/-- When a stored selection already carries the hash of the representative
payload, `saveSelection` only refreshes that selection's recency (bubble-up):
no row, index entry or blob is added, and the default-constructed entry is
emitted. This holds for any failure behaviour of the insert steps, which are
not reached. -/
lemma saveSelection_bubble_path (env : QtEnv) (fails : FailSpec) (sid oid : String)
    (now : Nat) (st : ServiceState) (sel : ClipboardSelection) (d : Bytes) (m : String)
    (hmon : st.monitoring = true) (hready : st.isEncryptionReady = true)
    (hclear : isClearSelection (processedOffers sel) = false)
    (hconc : (processedOffers sel).any (fun o => o.mimeType = CONCEALED_MIME_TYPE) = false)
    (hrep : chooseRepresentative env (processedOffers sel) = some (d, m))
    (hhit : st.db.selections.any (fun r => r.hash = env.md5hex d) = true) :
    saveSelection env fails sid oid now st sel =
      ({ st with
         db := { st.db with
                 selections := st.db.selections.map
                   (fun r => if r.hash = env.md5hex d then { r with updatedAt := now }
                             else r) } },
       [defaultEntry]) := by
  unfold saveSelection
  simp only [hmon, hready, Bool.not_true, Bool.or_self, Bool.false_eq_true, if_false,
    hclear, hconc, if_false]
  rw [hrep]
  unfold saveSelectionTxBody tryBubbleUpSelection
  simp [hhit]

/-- C2: persisting the same selection twice stores exactly one Selection. The
first call (no stored selection with the representative payload's hash, all
steps succeeding) inserts one row; the second call with the same payload finds
that row by its content hash, only refreshes its recency (`updatedAt`), and
writes no new selection row, no new offer row, no new index entry and no new
blob file. -/
theorem C2_duplicate_payload_bubbles_up (env : QtEnv) (sid1 oid1 sid2 oid2 : String)
    (t1 t2 : Nat) (st : ServiceState) (sel : ClipboardSelection) (d : Bytes) (m : String)
    (hmon : st.monitoring = true) (hready : st.isEncryptionReady = true)
    (hclear : isClearSelection (processedOffers sel) = false)
    (hconc : (processedOffers sel).any (fun o => o.mimeType = CONCEALED_MIME_TYPE) = false)
    (hrep : chooseRepresentative env (processedOffers sel) = some (d, m))
    (hfresh : st.db.selections.any (fun r => r.hash = env.md5hex d) = false) :
    ((saveSelection env noFail sid1 oid1 t1 st sel).1.db.selections.length =
      st.db.selections.length + 1) ∧
    ((saveSelection env noFail sid2 oid2 t2
        (saveSelection env noFail sid1 oid1 t1 st sel).1 sel).1.db.selections =
      (saveSelection env noFail sid1 oid1 t1 st sel).1.db.selections.map
        (fun r => if r.hash = env.md5hex d then { r with updatedAt := t2 } else r)) ∧
    ((saveSelection env noFail sid2 oid2 t2
        (saveSelection env noFail sid1 oid1 t1 st sel).1 sel).1.db.selections.length =
      (saveSelection env noFail sid1 oid1 t1 st sel).1.db.selections.length) ∧
    ((saveSelection env noFail sid2 oid2 t2
        (saveSelection env noFail sid1 oid1 t1 st sel).1 sel).1.db.offers =
      (saveSelection env noFail sid1 oid1 t1 st sel).1.db.offers) ∧
    ((saveSelection env noFail sid2 oid2 t2
        (saveSelection env noFail sid1 oid1 t1 st sel).1 sel).1.db.index =
      (saveSelection env noFail sid1 oid1 t1 st sel).1.db.index) ∧
    ((saveSelection env noFail sid2 oid2 t2
        (saveSelection env noFail sid1 oid1 t1 st sel).1 sel).1.blobs =
      (saveSelection env noFail sid1 oid1 t1 st sel).1.blobs) := by
  have h1 := saveSelection_insert_path env sid1 oid1 t1 st sel d m
    hmon hready hclear hconc hrep hfresh
  have hmon1 : (saveSelection env noFail sid1 oid1 t1 st sel).1.monitoring = true := by
    rw [h1]; exact hmon
  have hready1 : (saveSelection env noFail sid1 oid1 t1 st sel).1.isEncryptionReady = true := by
    rw [h1]; exact hready
  have hhit : (saveSelection env noFail sid1 oid1 t1 st sel).1.db.selections.any
      (fun r => r.hash = env.md5hex d) = true := by
    rw [h1]
    simp [List.any_append]
  have h2 := saveSelection_bubble_path env noFail sid2 oid2 t2
    (saveSelection env noFail sid1 oid1 t1 st sel).1 sel d m
    hmon1 hready1 hclear hconc hrep hhit
  refine ⟨?_, ?_, ?_, ?_, ?_, ?_⟩
  · rw [h1]; simp
  · rw [h2]
  · rw [h2]; simp
  · rw [h2]
  · rw [h2]
  · rw [h2]

/-- C2 witness for `C2_duplicate_payload_bubbles_up`. -/
theorem C2_duplicate_payload_bubbles_up_witness :
    ((saveSelection sampleEnv noFail "sid1" "oid1" 5 state0 selPlain).1.db.selections.length =
      state0.db.selections.length + 1) ∧
    ((saveSelection sampleEnv noFail "sid2" "oid2" 9
        (saveSelection sampleEnv noFail "sid1" "oid1" 5 state0 selPlain).1 selPlain).1.db.selections =
      (saveSelection sampleEnv noFail "sid1" "oid1" 5 state0 selPlain).1.db.selections.map
        (fun r => if r.hash = sampleEnv.md5hex [102, 111, 111] then { r with updatedAt := 9 }
                  else r)) ∧
    ((saveSelection sampleEnv noFail "sid2" "oid2" 9
        (saveSelection sampleEnv noFail "sid1" "oid1" 5 state0 selPlain).1 selPlain).1.db.selections.length =
      (saveSelection sampleEnv noFail "sid1" "oid1" 5 state0 selPlain).1.db.selections.length) ∧
    ((saveSelection sampleEnv noFail "sid2" "oid2" 9
        (saveSelection sampleEnv noFail "sid1" "oid1" 5 state0 selPlain).1 selPlain).1.db.offers =
      (saveSelection sampleEnv noFail "sid1" "oid1" 5 state0 selPlain).1.db.offers) ∧
    ((saveSelection sampleEnv noFail "sid2" "oid2" 9
        (saveSelection sampleEnv noFail "sid1" "oid1" 5 state0 selPlain).1 selPlain).1.db.index =
      (saveSelection sampleEnv noFail "sid1" "oid1" 5 state0 selPlain).1.db.index) ∧
    ((saveSelection sampleEnv noFail "sid2" "oid2" 9
        (saveSelection sampleEnv noFail "sid1" "oid1" 5 state0 selPlain).1 selPlain).1.blobs =
      (saveSelection sampleEnv noFail "sid1" "oid1" 5 state0 selPlain).1.blobs) :=
  C2_duplicate_payload_bubbles_up sampleEnv "sid1" "oid1" "sid2" "oid2" 5 9 state0 selPlain
    [102, 111, 111] "text/plain" rfl rfl (by decide) (by decide) (by decide) rfl

/-- The offer row inserted by the insert branch of the transaction body
(the `InsertClipboardOfferPayload` dto of clipboard-service.cpp:416-424). -/
def insertedOfferRow (env : QtEnv) (sid oid : String) (key : Option Bytes)
    (d : Bytes) (m : String) : OfferRow :=
  { id := oid, selectionId := sid, mimeType := m,
    textPreview := getOfferTextPreview env { mimeType := m, data := d },
    md5sum := env.md5hex d,
    encryption :=
      if key.isSome then ClipboardEncryptionType.Local else ClipboardEncryptionType.None,
    size := d.length,
    urlHost :=
      if getKind env { mimeType := m, data := d } = ClipboardOfferKind.Link ∧
          env.urlSchemeStartsWithHttp d then
        some (env.urlHost d)
      else none }

lemma saveSelectionTxBody_effects (env : QtEnv) (fails : FailSpec) (sid oid : String)
    (now : Nat) (key : Option Bytes) (src : Option String) (db : ClipboardDatabase)
    (blobs : List (String × Bytes)) (d : Bytes) (m : String) :
    ∃ nOff nBlob,
      (if (saveSelectionTxBody env fails sid oid now key src db blobs d m).ok
         then (saveSelectionTxBody env fails sid oid now key src db blobs d m).db
         else db).offers = db.offers ++ nOff ∧
      (saveSelectionTxBody env fails sid oid now key src db blobs d m).blobs
        = blobs ++ nBlob := by
  unfold saveSelectionTxBody tryBubbleUpSelection
  by_cases hhit : db.selections.any (fun r => r.hash = env.md5hex d) = true
  · refine ⟨[], [], ?_, ?_⟩ <;> simp [hhit]
  · simp only [Bool.not_eq_true] at hhit
    simp only [hhit, Bool.false_eq_true, if_false]
    by_cases hf1 : fails.insertSelectionFails = true
    · refine ⟨[], [], ?_, ?_⟩ <;> simp [hf1]
    · simp only [Bool.not_eq_true] at hf1
      simp only [hf1, Bool.false_eq_true, if_false]
      by_cases hf2 : (getKind env { mimeType := m, data := d } = ClipboardOfferKind.Text ∨
          getKind env { mimeType := m, data := d } = ClipboardOfferKind.Link) ∧
          fails.indexFails = true
      · refine ⟨[], [], ?_, ?_⟩ <;> simp [hf2]
      · rw [if_neg hf2]
        by_cases hf4 : fails.blobOpenFails = true
        · refine ⟨[], [], ?_, ?_⟩ <;> simp [hf4]
        · simp only [Bool.not_eq_true] at hf4
          simp only [hf4, Bool.false_eq_true, if_false]
          by_cases hf3 : fails.insertOfferFails = true
          · refine ⟨[], [(oid, if fails.blobWriteFails then []
              else match key with | some k => env.encrypt d k | none => d)], ?_, ?_⟩ <;>
              simp [hf3, apply_ite ClipboardDatabase.offers]
          · simp only [Bool.not_eq_true] at hf3
            refine ⟨[insertedOfferRow env sid oid key d m],
              [(oid, if fails.blobWriteFails then []
                else match key with | some k => env.encrypt d k | none => d)], ?_, ?_⟩
            all_goals simp [hf3, insertedOfferRow, apply_ite ClipboardDatabase.offers]

/-- Existing offer rows and blob files are never modified by a `saveSelection`
call: whatever the failure behaviour, the key state and the input selection,
the offers table and the blob directory of the resulting state are the old ones
with zero or more new entries appended. -/
lemma saveSelection_appends_only (env : QtEnv) (fails : FailSpec) (sid oid : String)
    (now : Nat) (st : ServiceState) (sel : ClipboardSelection) :
    ∃ newOffers newBlobs,
      (saveSelection env fails sid oid now st sel).1.db.offers = st.db.offers ++ newOffers ∧
      (saveSelection env fails sid oid now st sel).1.blobs = st.blobs ++ newBlobs := by
  unfold saveSelection
  by_cases hmon : (!st.monitoring || !st.isEncryptionReady) = true
  · refine ⟨[], [], ?_, ?_⟩ <;> simp [hmon]
  · rw [if_neg hmon]
    by_cases hclear : isClearSelection (processedOffers sel) = true
    · refine ⟨[], [], ?_, ?_⟩ <;> simp [hclear]
    · simp only [Bool.not_eq_true] at hclear
      simp only [hclear, Bool.false_eq_true, if_false]
      by_cases hconc : (processedOffers sel).any
          (fun o => o.mimeType = CONCEALED_MIME_TYPE) = true
      · refine ⟨[], [], ?_, ?_⟩ <;> simp [hconc]
      · simp only [Bool.not_eq_true] at hconc
        simp only [hconc, Bool.false_eq_true, if_false]
        cases hrep : chooseRepresentative env (processedOffers sel) with
        | none => exact ⟨[], [], by simp, by simp⟩
        | some dm =>
          obtain ⟨nOff, nBlob, hOff, hBlob⟩ := saveSelectionTxBody_effects env fails sid oid
            now st.localEncryptionKey sel.sourceApp st.db st.blobs dm.1 dm.2
          exact ⟨nOff, nBlob, by simpa using hOff, by simpa using hBlob⟩

/-- C9: the encryption marker of a persisted offer reflects the key state at
persist time — key absent (encryption resolved, no cached key): the offer row is
marked `None` and the blob holds the raw payload bytes, and the capture is still
accepted and stored; key present: the row is marked `Local` and the blob holds
the encrypted payload. Moreover no `saveSelection` call (any failure behaviour,
any later key state) ever modifies an existing offer row or blob file, so an
entry persisted without encryption is never re-encrypted after a key becomes
available. -/
theorem C9_encryption_reflects_persist_time_key :
    (∀ (env : QtEnv) (sid oid : String) (now : Nat) (st : ServiceState)
        (sel : ClipboardSelection) (d : Bytes) (m : String),
      st.monitoring = true → st.isEncryptionReady = true →
      isClearSelection (processedOffers sel) = false →
      (processedOffers sel).any (fun o => o.mimeType = CONCEALED_MIME_TYPE) = false →
      chooseRepresentative env (processedOffers sel) = some (d, m) →
      st.db.selections.any (fun r => r.hash = env.md5hex d) = false →
      ((st.localEncryptionKey = none →
        ∃ r : OfferRow,
          (saveSelection env noFail sid oid now st sel).1.db.offers = st.db.offers ++ [r] ∧
          r.encryption = ClipboardEncryptionType.None ∧
          (saveSelection env noFail sid oid now st sel).1.blobs = st.blobs ++ [(oid, d)]) ∧
       (∀ k, st.localEncryptionKey = some k →
        ∃ r : OfferRow,
          (saveSelection env noFail sid oid now st sel).1.db.offers = st.db.offers ++ [r] ∧
          r.encryption = ClipboardEncryptionType.Local ∧
          (saveSelection env noFail sid oid now st sel).1.blobs =
            st.blobs ++ [(oid, env.encrypt d k)]))) ∧
    (∀ (env : QtEnv) (fails : FailSpec) (sid oid : String) (now : Nat)
        (st : ServiceState) (sel : ClipboardSelection),
      ∃ newOffers newBlobs,
        (saveSelection env fails sid oid now st sel).1.db.offers = st.db.offers ++ newOffers ∧
        (saveSelection env fails sid oid now st sel).1.blobs = st.blobs ++ newBlobs) := by
  constructor
  · intro env sid oid now st sel d m hmon hready hclear hconc hrep hfresh
    have h1 := saveSelection_insert_path env sid oid now st sel d m
      hmon hready hclear hconc hrep hfresh
    constructor
    · intro hkey
      refine ⟨_, by rw [h1], ?_, by rw [h1, hkey]⟩
      rw [hkey]
      rfl
    · intro k hkey
      refine ⟨_, by rw [h1], ?_, by rw [h1, hkey]⟩
      rw [hkey]
      rfl
  · exact saveSelection_appends_only

/-- C9 witness for `C9_encryption_reflects_persist_time_key`: the key-absent
case at a concrete input. -/
theorem C9_encryption_reflects_persist_time_key_witness :
    ∃ r : OfferRow,
      (saveSelection sampleEnv noFail "sid1" "oid1" 5 state0 selPlain).1.db.offers =
        state0.db.offers ++ [r] ∧
      r.encryption = ClipboardEncryptionType.None ∧
      (saveSelection sampleEnv noFail "sid1" "oid1" 5 state0 selPlain).1.blobs =
        state0.blobs ++ [("oid1", [102, 111, 111])] :=
  (C9_encryption_reflects_persist_time_key.1 sampleEnv "sid1" "oid1" 5 state0 selPlain
    [102, 111, 111] "text/plain" rfl rfl (by decide) (by decide) (by decide) rfl).1 rfl

/-- The offers of a stored selection that are not skipped as mozilla-internal by
the `getSelectionPreferredMimeType` loop. -/
def nonMozOffers (selection : ClipboardSelection) : List ClipboardDataOffer :=
  selection.offers.filter (fun o => !(mimeStartsWith o.mimeType "text/_moz_html"))

/-- The maximal `selectionPriorityOf` value over a list of offers (0 when the
list is empty; every real offer has priority at least `Other = 1`). -/
def maxSelectionPriority (xs : List ClipboardDataOffer) : Nat :=
  xs.foldl (fun a o => max a (selectionPriorityOf o.mimeType)) 0

lemma selectionPriorityOf_pos (m : String) : 1 ≤ selectionPriorityOf m := by
  unfold selectionPriorityOf
  split_ifs <;> norm_num

lemma maxSelectionPriority_foldl_init (xs : List ClipboardDataOffer) (a : Nat) :
    xs.foldl (fun a o => max a (selectionPriorityOf o.mimeType)) a =
      max a (maxSelectionPriority xs) := by
  induction xs generalizing a with
  | nil => simp [maxSelectionPriority]
  | cons b rest ih =>
    show List.foldl _ (max a (selectionPriorityOf b.mimeType)) rest = _
    rw [ih]
    unfold maxSelectionPriority
    show _ = max a (List.foldl _ (max 0 (selectionPriorityOf b.mimeType)) rest)
    rw [ih (max 0 (selectionPriorityOf b.mimeType))]
    simp only [Nat.zero_max, Nat.max_assoc]
    rfl

lemma maxSelectionPriority_cons (b : ClipboardDataOffer) (rest : List ClipboardDataOffer) :
    maxSelectionPriority (b :: rest) =
      max (selectionPriorityOf b.mimeType) (maxSelectionPriority rest) := by
  unfold maxSelectionPriority
  show List.foldl _ (max 0 (selectionPriorityOf b.mimeType)) rest = _
  rw [maxSelectionPriority_foldl_init rest (max 0 (selectionPriorityOf b.mimeType))]
  simp only [Nat.zero_max]
  rfl

lemma selectionPriorityStep_fold_keep :
    ∀ (xs : List ClipboardDataOffer) (p : Nat) (m : String),
      (∀ o ∈ xs, mimeStartsWith o.mimeType "text/_moz_html" = false) →
      maxSelectionPriority xs ≤ p →
      xs.foldl selectionPriorityStep (p, m) = (p, m) := by
  intro xs
  induction xs with
  | nil => intro p m _ _; rfl
  | cons b rest ih =>
    intro p m hmoz hle
    rw [maxSelectionPriority_cons] at hle
    have hb : selectionPriorityOf b.mimeType ≤ p :=
      le_trans (le_max_left _ _) hle
    have hrest : maxSelectionPriority rest ≤ p :=
      le_trans (le_max_right _ _) hle
    show List.foldl selectionPriorityStep (selectionPriorityStep (p, m) b) rest = (p, m)
    have hstep : selectionPriorityStep (p, m) b = (p, m) := by
      unfold selectionPriorityStep
      rw [if_neg (by simp [hmoz b (List.mem_cons_self _ _)])]
      simp only []
      rw [if_neg (by simpa using Nat.not_lt.mpr hb)]
    rw [hstep]
    exact ih p m (fun o ho => hmoz o (List.mem_cons_of_mem _ ho)) hrest

lemma selectionPriorityStep_fold_find :
    ∀ (xs : List ClipboardDataOffer) (p : Nat) (m : String),
      (∀ o ∈ xs, mimeStartsWith o.mimeType "text/_moz_html" = false) →
      p < maxSelectionPriority xs →
      ∃ o, xs.find? (fun o => selectionPriorityOf o.mimeType == maxSelectionPriority xs) =
            some o ∧
        (xs.foldl selectionPriorityStep (p, m)).2 = o.mimeType := by
  intro xs
  induction xs with
  | nil => intro p m _ hlt; exact absurd hlt (by simp [maxSelectionPriority])
  | cons b rest ih =>
    intro p m hmoz hlt
    have hmozb : mimeStartsWith b.mimeType "text/_moz_html" = false :=
      hmoz b (List.mem_cons_self _ _)
    have hmozrest : ∀ o ∈ rest, mimeStartsWith o.mimeType "text/_moz_html" = false :=
      fun o ho => hmoz o (List.mem_cons_of_mem _ ho)
    have hfold : (b :: rest).foldl selectionPriorityStep (p, m) =
        rest.foldl selectionPriorityStep (selectionPriorityStep (p, m) b) := rfl
    by_cases h1 : p < selectionPriorityOf b.mimeType
    · have hstep : selectionPriorityStep (p, m) b =
          (selectionPriorityOf b.mimeType, b.mimeType) := by
        unfold selectionPriorityStep
        rw [if_neg (by simp [hmozb])]
        simp only []
        rw [if_pos h1]
      by_cases h2 : maxSelectionPriority rest ≤ selectionPriorityOf b.mimeType
      · have hM : maxSelectionPriority (b :: rest) = selectionPriorityOf b.mimeType := by
          rw [maxSelectionPriority_cons]
          exact Nat.max_eq_left h2
        refine ⟨b, ?_, ?_⟩
        · rw [List.find?_cons, hM]
          simp
        · rw [hfold, hstep,
            selectionPriorityStep_fold_keep rest _ _ hmozrest h2]
      · push_neg at h2
        have hM : maxSelectionPriority (b :: rest) = maxSelectionPriority rest := by
          rw [maxSelectionPriority_cons]
          exact Nat.max_eq_right (le_of_lt h2)
        obtain ⟨o, hfind, hfo⟩ := ih (selectionPriorityOf b.mimeType) b.mimeType hmozrest h2
        refine ⟨o, ?_, ?_⟩
        · rw [List.find?_cons, hM]
          have : (selectionPriorityOf b.mimeType == maxSelectionPriority rest) = false := by
            simp [Nat.ne_of_lt h2]
          rw [this]
          exact hfind
        · rw [hfold, hstep]
          exact hfo
    · push_neg at h1
      have hstep : selectionPriorityStep (p, m) b = (p, m) := by
        unfold selectionPriorityStep
        rw [if_neg (by simp [hmozb])]
        simp only []
        rw [if_neg (by simpa using Nat.not_lt.mpr h1)]
      have hprest : p < maxSelectionPriority rest := by
        rw [maxSelectionPriority_cons] at hlt
        omega
      have hM : maxSelectionPriority (b :: rest) = maxSelectionPriority rest := by
        rw [maxSelectionPriority_cons]
        exact Nat.max_eq_right (le_trans h1 (le_of_lt hprest))
      obtain ⟨o, hfind, hfo⟩ := ih p m hmozrest hprest
      refine ⟨o, ?_, ?_⟩
      · rw [List.find?_cons, hM]
        have : (selectionPriorityOf b.mimeType == maxSelectionPriority rest) = false := by
          simp [Nat.ne_of_lt (lt_of_le_of_lt h1 hprest)]
        rw [this]
        exact hfind
      · rw [hfold, hstep]
        exact hfo

lemma selectionPriorityStep_fold_filter :
    ∀ (xs : List ClipboardDataOffer) (acc : Nat × String),
      xs.foldl selectionPriorityStep acc =
        (xs.filter (fun o => !(mimeStartsWith o.mimeType "text/_moz_html"))).foldl
          selectionPriorityStep acc := by
  intro xs
  induction xs with
  | nil => intro acc; rfl
  | cons b rest ih =>
    intro acc
    by_cases hmoz : mimeStartsWith b.mimeType "text/_moz_html" = true
    · have hstep : selectionPriorityStep acc b = acc := by
        unfold selectionPriorityStep
        rw [if_pos hmoz]
      show List.foldl selectionPriorityStep (selectionPriorityStep acc b) rest = _
      rw [hstep, List.filter_cons, if_neg (by simp [hmoz]), ih]
    · simp only [Bool.not_eq_true] at hmoz
      show List.foldl selectionPriorityStep (selectionPriorityStep acc b) rest = _
      rw [List.filter_cons, if_pos (by simp [hmoz])]
      exact ih (selectionPriorityStep acc b)

/-- C5 (amended): for every stored selection, `getSelectionPreferredMimeType`
returns the mime type of the first offer attaining the maximal priority under
the ranking actually implemented: everything unmatched — including generic
`image/*` types — ranks `Other = 1` < `text/html` = 2 < text (`text/plain` and
every other `text/*` except `text/html` and `text/svg`) = 3 < `image/jpeg` = 5
< `image/png` = 6 < `image/svg+xml` and `text/svg` = 7, ties broken first-seen,
mozilla-internal mime types ignored entirely ("" when no offer remains); in
particular offers `{text/html, image/jpeg}` resolve to `image/jpeg`. -/
theorem C5_preferred_mime_first_seen_max (sel : ClipboardSelection) :
    (getSelectionPreferredMimeType sel =
      ((nonMozOffers sel).find?
        (fun o => selectionPriorityOf o.mimeType ==
          maxSelectionPriority (nonMozOffers sel))).elim "" (fun o => o.mimeType)) ∧
    getSelectionPreferredMimeType
      { offers := [{ mimeType := "text/html", data := [60] },
                   { mimeType := "image/jpeg", data := [255] }], sourceApp := none } =
      "image/jpeg" := by
  constructor
  · have hfold : getSelectionPreferredMimeType sel =
        ((nonMozOffers sel).foldl selectionPriorityStep ((0 : Nat), "")).2 := by
      unfold getSelectionPreferredMimeType nonMozOffers
      rw [selectionPriorityStep_fold_filter]
    rw [hfold]
    have hmoz : ∀ o ∈ nonMozOffers sel,
        mimeStartsWith o.mimeType "text/_moz_html" = false := by
      intro o ho
      have := List.mem_filter.mp ho
      simpa using this.2
    cases hxs : nonMozOffers sel with
    | nil => simp
    | cons b rest =>
      rw [hxs] at hmoz
      have hpos : 0 < maxSelectionPriority (b :: rest) := by
        rw [maxSelectionPriority_cons]
        have := selectionPriorityOf_pos b.mimeType
        omega
      obtain ⟨o, hfind, hfo⟩ :=
        selectionPriorityStep_fold_find (b :: rest) 0 "" hmoz hpos
      rw [hfind]
      exact hfo
  · decide

lemma dedupAdjacentGo_sublist :
    ∀ (xs : List ClipboardDataOffer) (last : ClipboardDataOffer),
      (dedupAdjacentGo last xs).Sublist xs := by
  intro xs
  induction xs with
  | nil => intro last; exact List.Sublist.refl _
  | cons b rest ih =>
    intro last
    unfold dedupAdjacentGo
    by_cases heq : last.mimeType = b.mimeType
    · rw [if_pos heq]
      exact List.Sublist.cons b (ih last)
    · rw [if_neg heq]
      exact List.Sublist.cons₂ b (ih b)

lemma dedupAdjacentGo_chain :
    ∀ (xs : List ClipboardDataOffer) (last : ClipboardDataOffer),
      List.Chain' (fun a b => a.mimeType ≠ b.mimeType) (last :: dedupAdjacentGo last xs) := by
  intro xs
  induction xs with
  | nil => intro last; unfold dedupAdjacentGo; simp
  | cons b rest ih =>
    intro last
    unfold dedupAdjacentGo
    by_cases heq : last.mimeType = b.mimeType
    · rw [if_pos heq]
      exact ih last
    · rw [if_neg heq]
      exact List.chain'_cons.mpr ⟨heq, ih b⟩

lemma dedupAdjacentGo_id :
    ∀ (xs : List ClipboardDataOffer) (last : ClipboardDataOffer),
      List.Chain' (fun a b => a.mimeType ≠ b.mimeType) (last :: xs) →
      dedupAdjacentGo last xs = xs := by
  intro xs
  induction xs with
  | nil => intro last _; rfl
  | cons b rest ih =>
    intro last hchain
    obtain ⟨hne, hrest⟩ := List.chain'_cons.mp hchain
    unfold dedupAdjacentGo
    rw [if_neg hne, ih b hrest]

/-- C7 (amended): the offers considered by `saveSelection` are the non-empty
offers with only *adjacent* runs of equal mime type collapsed to their first
element (`std::ranges::unique` semantics), padded — because the result of
`unique` is never erased — with as many moved-from (default-constructed) offers
as were logically removed. Consequently the considered real offers form a
subsequence of the input in which no two adjacent offers share a mime type;
when the non-empty offers already have no adjacent equal mime types the stage
keeps all of them (so non-adjacent duplicates survive); and a selection all of
whose offers carry empty bytes is never persisted and emits nothing. -/
theorem C7_adjacent_dedup_characterization :
    (∀ sel : ClipboardSelection, processedOffers sel =
      dedupAdjacentByMime (sel.offers.filter (fun o => !o.data.isEmpty)) ++
        List.replicate ((sel.offers.filter (fun o => !o.data.isEmpty)).length -
          (dedupAdjacentByMime (sel.offers.filter (fun o => !o.data.isEmpty))).length)
          { mimeType := "", data := [] }) ∧
    (∀ xs : List ClipboardDataOffer, (dedupAdjacentByMime xs).Sublist xs) ∧
    (∀ xs : List ClipboardDataOffer,
      List.Chain' (fun a b => a.mimeType ≠ b.mimeType) (dedupAdjacentByMime xs)) ∧
    (∀ xs : List ClipboardDataOffer,
      List.Chain' (fun a b => a.mimeType ≠ b.mimeType) xs → dedupAdjacentByMime xs = xs) ∧
    (∀ (env : QtEnv) (fails : FailSpec) (sid oid : String) (now : Nat)
        (st : ServiceState) (sel : ClipboardSelection),
      (∀ o ∈ sel.offers, o.data = []) →
      saveSelection env fails sid oid now st sel = (st, [])) := by
  refine ⟨fun _ => rfl, ?_, ?_, ?_, ?_⟩
  · intro xs
    cases xs with
    | nil => exact List.Sublist.refl _
    | cons a rest => exact List.Sublist.cons₂ a (dedupAdjacentGo_sublist rest a)
  · intro xs
    cases xs with
    | nil => simp [dedupAdjacentByMime]
    | cons a rest =>
      show List.Chain' _ (a :: dedupAdjacentGo a rest)
      exact dedupAdjacentGo_chain rest a
  · intro xs hchain
    cases xs with
    | nil => rfl
    | cons a rest =>
      show a :: dedupAdjacentGo a rest = a :: rest
      rw [dedupAdjacentGo_id rest a hchain]
  · intro env fails sid oid now st sel hall
    have hfe : sel.offers.filter (fun o => !o.data.isEmpty) = [] := by
      rw [List.filter_eq_nil_iff]
      intro o ho
      simp [hall o ho]
    have hproc : processedOffers sel = [] := by
      unfold processedOffers
      rw [hfe]
      rfl
    unfold saveSelection
    by_cases hmon : (!st.monitoring || !st.isEncryptionReady) = true
    · rw [if_pos hmon]
    · rw [if_neg hmon]
      rw [hproc]
      rfl

/-- C7 witness for `C7_adjacent_dedup_characterization`: the identity case on a
list with no adjacent equal mime types and the all-empty skip case. -/
theorem C7_adjacent_dedup_characterization_witness :
    dedupAdjacentByMime
      [{ mimeType := "text/plain", data := [1] },
       { mimeType := "text/html", data := [2] },
       { mimeType := "text/plain", data := [3] }] =
      [{ mimeType := "text/plain", data := [1] },
       { mimeType := "text/html", data := [2] },
       { mimeType := "text/plain", data := [3] }] ∧
    saveSelection sampleEnv noFail "sid1" "oid1" 5 state0
      { offers := [{ mimeType := "text/plain", data := [] }], sourceApp := none } =
      (state0, []) :=
  ⟨C7_adjacent_dedup_characterization.2.2.2.1 _
     (List.chain'_cons.mpr ⟨by decide, List.chain'_cons.mpr ⟨by decide, by simp⟩⟩),
   C7_adjacent_dedup_characterization.2.2.2.2 sampleEnv noFail "sid1" "oid1" 5 state0
     { offers := [{ mimeType := "text/plain", data := [] }], sourceApp := none }
     (by decide)⟩

/-- C10: `removeSelection` returns true and emits `selectionRemoved(id)`
unconditionally — also when no selection with that id exists, in which case the
store (metadata and blob directory) is left unchanged; and it deletes exactly
the blob files whose offer identifiers the metadata database reports as
removed. -/
theorem C10_remove_selection_total (st : ServiceState) (selectionId : String) :
    ((removeSelection st selectionId).2.1 = true) ∧
    ((removeSelection st selectionId).2.2 = [selectionId]) ∧
    (∀ b, b ∈ (removeSelection st selectionId).1.blobs ↔
      b ∈ st.blobs ∧ b.1 ∉ (dbRemoveSelection st.db selectionId).2) ∧
    ((∀ s ∈ st.db.selections, s.id ≠ selectionId) →
      (∀ o ∈ st.db.offers, o.selectionId ≠ selectionId) →
      (removeSelection st selectionId).1 = st) := by
  refine ⟨rfl, rfl, ?_, ?_⟩
  · intro b
    unfold removeSelection
    simp [List.mem_filter]
  · intro hs ho
    unfold removeSelection dbRemoveSelection
    have h1 : st.db.selections.filter (fun r => decide (r.id ≠ selectionId)) =
        st.db.selections := by
      rw [List.filter_eq_self]
      intro r hr
      simpa using hs r hr
    have h2 : st.db.offers.filter (fun o => decide (o.selectionId ≠ selectionId)) =
        st.db.offers := by
      rw [List.filter_eq_self]
      intro o hoo
      simpa using ho o hoo
    have h3 : st.db.offers.filter (fun o => decide (o.selectionId = selectionId)) = [] := by
      rw [List.filter_eq_nil_iff]
      intro o hoo
      simpa using ho o hoo
    simp only [h1, h2, h3, List.map_nil]
    have h4 : st.blobs.filter (fun b => !(([] : List String).contains b.1)) = st.blobs := by
      simp
    simp only [h4]

/-- C10 witness for `C10_remove_selection_total`: removing an id from the empty
store leaves it unchanged. -/
theorem C10_remove_selection_total_witness :
    (removeSelection state0 "missing").2.1 = true ∧
    (removeSelection state0 "missing").1 = state0 :=
  ⟨(C10_remove_selection_total state0 "missing").1,
   (C10_remove_selection_total state0 "missing").2.2.2
     (by intro s hs; exact absurd hs (List.not_mem_nil s))
     (by intro o ho; exact absurd ho (List.not_mem_nil o))⟩

end Vicinae
